import Mathlib

/-!
Verification of the peoples-agent backend pipeline.

Shallow embedding of the orchestration core (src/backend/graph.py), the
entity resolver (src/backend/entity_resolver.py), the context compressor
(src/backend/context_ranker.py), the extraction agents with their failure
semantics (src/backend/extraction_agents.py) and the knowledge-graph write
paths (src/backend/knowledge_graph.py).

Python strings are modelled as Lean `String` (or `List Char` where index
arithmetic is needed), Python floats on the SM-2 / similarity paths as `ℚ`,
and every model-oracle (LLM) call as an explicit parameter: either an
`Except` value (a call that can raise) or a plain function argument (the
returned text).  Control flow is translated statement by statement from the
Python source.
-/

namespace PeoplesAgent

/-! ## Python string helpers -/

/-- Python `str.split()` with no argument: split on whitespace runs and
drop empty pieces; `pyWordCount s` is `len(s.split())`. -/
def pyWordCount (s : String) : Nat :=
  ((s.split Char.isWhitespace).filter (fun w => w ≠ "")).length

/-- Python `str.lower()` (ASCII case mapping), structurally on the
character list so that it evaluates by kernel reduction. -/
def pyLower (s : String) : String := ⟨s.data.map Char.toLower⟩

/-- Python `str.strip()` on a character list: drop whitespace from both
ends. -/
def stripL (l : List Char) : List Char :=
  ((l.dropWhile Char.isWhitespace).reverse.dropWhile Char.isWhitespace).reverse

/-- Python `str.strip()`. -/
def pyStrip (s : String) : String := ⟨stripL s.data⟩

/-- Python `str.startswith`. -/
def pyStartsWith (s pre : String) : Bool := pre.data.isPrefixOf s.data

/-- First index of `needle` as a contiguous substring of `hay`
(Python `str.find`, with `none` for `-1`). -/
def findSub (needle : List Char) : List Char → Nat → Option Nat
  | hay, i =>
    if needle.isPrefixOf hay then some i
    else
      match hay with
      | [] => none
      | _ :: t => findSub needle t (i + 1)

/-- Python `needle in hay` (substring containment). -/
def strContains (hay needle : String) : Bool :=
  (findSub needle.data hay.data 0).isSome

/-- Python `hay.count(needle)`: non-overlapping occurrence count. -/
def countSub (needle : List Char) (hay : List Char) : Nat :=
  match hay with
  | [] => 0
  | c :: rest =>
    if needle ≠ [] ∧ needle.isPrefixOf (c :: rest) then
      1 + countSub needle (rest.drop (needle.length - 1))
    else
      countSub needle rest
termination_by hay.length
decreasing_by
  · simp only [List.length_cons, List.length_drop]; omega
  · simp only [List.length_cons]; omega

/-- Python slice `s[:n]` on a `String`. -/
def pyTake (s : String) (n : Nat) : String :=
  ⟨s.data.take n⟩

/-! ## Data model (src/backend/knowledge_graph.py dataclasses) -/

/-- Dataclass `Entity`: name, type, description. -/
structure Entity where
  name : String
  type : String
  description : String
deriving Repr, DecidableEq

/-- Dataclass `Category`: name and confidence. -/
structure Category where
  name : String
  confidence : ℚ
deriving Repr, DecidableEq

/-- Dataclass `ActionItem`. -/
structure ActionItem where
  description : String
  urgency : ℤ
  status : String
deriving Repr, DecidableEq

/-- Dataclass `SocialNudge`. -/
structure SocialNudge where
  person_name : String
  reason : String
  suggestion : String
deriving Repr, DecidableEq

/-- Dataclass `ThoughtNode` (the persisted thought record). -/
structure ThoughtNode where
  id : String
  content : String
  summary : String
  timestamp : String
  entities : List Entity
  categories : List Category
  related_thought_ids : List String
  is_blocker : Bool
  affected_project : Option String
  actions : List ActionItem
  nudges : List SocialNudge
  review_count : Nat
  last_reviewed : Option String
  ease_factor : ℚ
deriving Repr, DecidableEq

/-- TypedDict `AgentState` from graph.py: the mutable accumulator threaded
through the pipeline stages (fields used by the orchestration logic). -/
structure AgentState where
  thought : String
  thought_id : String
  is_question : Bool
  retrieved_notes : String
  analysis : String
  insights : String
  response : String
  conversation_context : String
  stage : String
  entities : List Entity
  categories : List Category
  summary : String
  related_context : String
  reflection_iterations : Nat
  critique : String
  is_blocker : Bool
  affected_project : Option String
  actions : List ActionItem
  nudges : List SocialNudge
deriving Repr, DecidableEq

/-- A fully blank state, as `process_thought` builds before invoking the
compiled graph (all strings empty, all lists empty, counters zero). -/
def initialState (thought thought_id : String) : AgentState :=
  { thought := thought
    thought_id := thought_id
    is_question := false
    retrieved_notes := ""
    analysis := ""
    insights := ""
    response := ""
    conversation_context := ""
    stage := "start"
    entities := []
    categories := []
    summary := ""
    related_context := ""
    reflection_iterations := 0
    critique := ""
    is_blocker := false
    affected_project := none
    actions := []
    nudges := [] }

/-! ## Routing (graph.py `should_use_full_pipeline`, `should_continue_reflection`) -/

/-- The fixed greeting / acknowledgement patterns from
`should_use_full_pipeline`. -/
def simple_patterns : List String :=
  ["hi", "hello", "hey", "thanks", "thank you", "ok", "okay", "bye", "goodbye"]

/-- graph.py `should_use_full_pipeline` (lines 476-483). -/
def should_use_full_pipeline (state : AgentState) : String :=
  let thought := pyStrip (pyLower state.thought)
  if thought.length < 15 ∨ thought ∈ simple_patterns then "simple"
  else "full_pipeline"

/-- The fixed refinement signal words scanned by
`should_continue_reflection`. -/
def refinement_signals : List String :=
  ["missing", "should include", "could add", "forgot",
   "overlooked", "didn\x27t catch", "also mention", "important",
   "person", "project", "relationship"]

/-- graph.py `should_continue_reflection` (lines 486-527), translated
branch by branch; the Python locals `critique`, `iterations` and
`entity_count` are inlined. -/
def should_continue_reflection (state : AgentState) : String :=
  if 2 ≤ state.reflection_iterations then "conclude"
  else if pyStartsWith (pyLower state.critique) "looks good" ∧
      (pyLower state.critique).length < 30 then "conclude"
  else if refinement_signals.any
      (fun signal => strContains (pyLower state.critique) signal) then "refine"
  else if 20 < pyWordCount state.thought ∧ state.entities.length < 2 ∧
      state.reflection_iterations = 1 then "refine"
  else "conclude"

/-! ## Reflection loop nodes (graph.py `reflection_node`, `refinement_node`) -/

/-- graph.py `reflection_node` (lines 191-206): the critic oracle result is
passed in as `critiqueResult` (the awaited `critique_extraction` output). -/
def reflection_node (critiqueResult : String) (state : AgentState) : AgentState :=
  { state with
    critique := critiqueResult
    reflection_iterations := state.reflection_iterations + 1
    stage := "reflected" }

/-- graph.py `refinement_node` (lines 209-225): the refiner oracle result is
passed in as `newEntities` (the awaited `refine_extraction` output). -/
def refinement_node (newEntities : List Entity) (state : AgentState) : AgentState :=
  { state with
    entities := newEntities
    stage := "refined" }

/-- Routing returns only the two labels of `should_continue_reflection`. -/
theorem scr_cases (s : AgentState) :
    should_continue_reflection s = "refine" ∨ should_continue_reflection s = "conclude" := by
  unfold should_continue_reflection
  split_ifs <;> simp

/-- If the routing function says `refine`, the counter is still below the
hard cap. -/
theorem scr_refine_lt_two (s : AgentState)
    (h : should_continue_reflection s = "refine") : s.reflection_iterations < 2 := by
  by_contra hge
  push_neg at hge
  unfold should_continue_reflection at h
  rw [if_pos hge] at h
  exact absurd h (by decide)

/-- Once the counter reaches the hard cap, the routing function concludes. -/
theorem scr_conclude_of_cap (s : AgentState) (h : 2 ≤ s.reflection_iterations) :
    should_continue_reflection s = "conclude" := by
  unfold should_continue_reflection
  rw [if_pos h]

/-- The reflect ⟲ refine loop wired in `build_graph`: run the critic
(`reflection_node`), route with `should_continue_reflection`; on `refine`
run the refiner (`refinement_node`, fed the critique and current entities)
and re-enter `reflect`.  `critic` and `refiner` model the two LLM oracles
and are unconstrained. -/
def runReflection (critic : Nat → String)
    (refiner : String → List Entity → String → List Entity)
    (s : AgentState) : AgentState :=
  if h : should_continue_reflection (reflection_node (critic s.reflection_iterations) s)
      = "refine" then
    runReflection critic refiner
      (refinement_node
        (refiner (reflection_node (critic s.reflection_iterations) s).thought
          (reflection_node (critic s.reflection_iterations) s).entities
          (reflection_node (critic s.reflection_iterations) s).critique)
        (reflection_node (critic s.reflection_iterations) s))
  else reflection_node (critic s.reflection_iterations) s
termination_by 2 - s.reflection_iterations
decreasing_by
  have hlt := scr_refine_lt_two _ h
  simp only [reflection_node, refinement_node] at hlt ⊢
  omega

/-- If a state enters `reflect` with counter 1, the loop stops right after
that reflection, with the counter at 2 and the router concluding. -/
theorem runReflection_of_one (critic : Nat → String)
    (refiner : String → List Entity → String → List Entity)
    (s : AgentState) (h1 : s.reflection_iterations = 1) :
    (runReflection critic refiner s).reflection_iterations = 2 ∧
      should_continue_reflection (runReflection critic refiner s) = "conclude" := by
  have hcap : 2 ≤ (reflection_node (critic s.reflection_iterations) s).reflection_iterations := by
    simp [reflection_node, h1]
  have hc := scr_conclude_of_cap _ hcap
  rw [runReflection, dif_neg (by rw [hc]; decide)]
  exact ⟨by simp [reflection_node, h1], hc⟩

/-- Starting the loop with the counter initialized to 0 (as
`context_loader` does), the loop exits with the counter at most 2, and the
router answers `conclude` on the exit state. -/
theorem runReflection_bounded (critic : Nat → String)
    (refiner : String → List Entity → String → List Entity)
    (s : AgentState) (h0 : s.reflection_iterations = 0) :
    (runReflection critic refiner s).reflection_iterations ≤ 2 ∧
      should_continue_reflection (runReflection critic refiner s) = "conclude" := by
  rw [runReflection]
  by_cases h1 : should_continue_reflection (reflection_node (critic s.reflection_iterations) s)
      = "refine"
  · rw [dif_pos h1]
    have hone : (refinement_node
        (refiner (reflection_node (critic s.reflection_iterations) s).thought
          (reflection_node (critic s.reflection_iterations) s).entities
          (reflection_node (critic s.reflection_iterations) s).critique)
        (reflection_node (critic s.reflection_iterations) s)).reflection_iterations = 1 := by
      simp [reflection_node, refinement_node, h0]
    have := runReflection_of_one critic refiner _ hone
    exact ⟨le_of_eq this.1, this.2⟩
  · rw [dif_neg h1]
    refine ⟨by simp [reflection_node, h0], ?_⟩
    rcases scr_cases (reflection_node (critic s.reflection_iterations) s) with h | h
    · exact absurd h h1
    · exact h

/-- C1: for every pipeline execution (reflection counter initialized to
0) and every possible critic and refiner oracle output — including a critic
that always signals "missing" — the reflect ⟲ refine loop never exceeds 2
iterations: `should_continue_reflection` answers `conclude` whenever the
counter has reached 2, the counter is incremented by exactly 1 by the
reflect node and by nothing else in the loop, and at the moment the router
answers `conclude` (the transition into enrichment) the counter is at
most 2. -/
theorem reflection_iterations_le_two (critic : Nat → String)
    (refiner : String → List Entity → String → List Entity)
    (s : AgentState) (h0 : s.reflection_iterations = 0) :
    (∀ t : AgentState, 2 ≤ t.reflection_iterations →
        should_continue_reflection t = "conclude") ∧
    (∀ c t, (reflection_node c t).reflection_iterations = t.reflection_iterations + 1) ∧
    (∀ es t, (refinement_node es t).reflection_iterations = t.reflection_iterations) ∧
    (runReflection critic refiner s).reflection_iterations ≤ 2 ∧
    should_continue_reflection (runReflection critic refiner s) = "conclude" := by
  have h := runReflection_bounded critic refiner s h0
  exact ⟨scr_conclude_of_cap, fun c t => rfl, fun es t => rfl, h.1, h.2⟩

/-- Witness for C1: an adversarial critic that always reports something
"missing" still leaves the loop with at most 2 iterations. -/
theorem reflection_iterations_le_two_witness :
    (runReflection (fun _ => "missing: an important person and a project")
      (fun _ es _ => es) (initialState "A long thought about many things" "id1")
      ).reflection_iterations ≤ 2 :=
  (reflection_iterations_le_two _ _ _ rfl).2.2.2.1

/-- C2: `should_continue_reflection` applies its rules in the fixed
priority order: (1) counter at the hard cap → `conclude` regardless of the
critique; (2) otherwise a short "looks good" critique → `conclude` even if
it contains a signal word; (3) otherwise any signal word present →
`refine`; (4) otherwise a substantive thought (more than 20 words) with
fewer than 2 entities on exactly the first iteration → `refine`;
(5) otherwise `conclude`. -/
theorem scr_priority_order (s : AgentState) :
    (2 ≤ s.reflection_iterations → should_continue_reflection s = "conclude") ∧
    (s.reflection_iterations < 2 →
      pyStartsWith (pyLower s.critique) "looks good" = true →
      (pyLower s.critique).length < 30 →
      should_continue_reflection s = "conclude") ∧
    (s.reflection_iterations < 2 →
      ¬(pyStartsWith (pyLower s.critique) "looks good" = true ∧
        (pyLower s.critique).length < 30) →
      (∃ sig ∈ refinement_signals, strContains (pyLower s.critique) sig = true) →
      should_continue_reflection s = "refine") ∧
    (s.reflection_iterations < 2 →
      ¬(pyStartsWith (pyLower s.critique) "looks good" = true ∧
        (pyLower s.critique).length < 30) →
      (∀ sig ∈ refinement_signals, strContains (pyLower s.critique) sig = false) →
      20 < pyWordCount s.thought → s.entities.length < 2 →
      s.reflection_iterations = 1 →
      should_continue_reflection s = "refine") ∧
    (s.reflection_iterations < 2 →
      ¬(pyStartsWith (pyLower s.critique) "looks good" = true ∧
        (pyLower s.critique).length < 30) →
      (∀ sig ∈ refinement_signals, strContains (pyLower s.critique) sig = false) →
      ¬(20 < pyWordCount s.thought ∧ s.entities.length < 2 ∧
        s.reflection_iterations = 1) →
      should_continue_reflection s = "conclude") := by
  refine ⟨scr_conclude_of_cap s, ?_, ?_, ?_, ?_⟩
  · intro hlt hsw hlen
    unfold should_continue_reflection
    rw [if_neg (by omega), if_pos ⟨hsw, hlen⟩]
  · intro hlt hgood ⟨sig, hmem, hsig⟩
    unfold should_continue_reflection
    rw [if_neg (by omega), if_neg hgood,
      if_pos (List.any_eq_true.mpr ⟨sig, hmem, hsig⟩)]
  · intro hlt hgood hnosig hwc hec hit
    unfold should_continue_reflection
    rw [if_neg (by omega), if_neg hgood,
      if_neg (by
        intro hany
        obtain ⟨sig, hmem, hsig⟩ := List.any_eq_true.mp hany
        rw [hnosig sig hmem] at hsig
        exact absurd hsig (by decide)),
      if_pos ⟨hwc, hec, hit⟩]
  · intro hlt hgood hnosig hno4
    unfold should_continue_reflection
    rw [if_neg (by omega), if_neg hgood,
      if_neg (by
        intro hany
        obtain ⟨sig, hmem, hsig⟩ := List.any_eq_true.mp hany
        rw [hnosig sig hmem] at hsig
        exact absurd hsig (by decide)),
      if_neg hno4]

/-- Witness for C2: a state at the hard cap whose critique still contains
the signal word "missing" concludes anyway. -/
theorem scr_priority_order_witness :
    should_continue_reflection
      { (initialState "t" "id") with
          reflection_iterations := 2
          critique := "missing person" } = "conclude" :=
  (scr_priority_order _).1 (by decide)

/-- C7: `should_use_full_pipeline` answers "simple" exactly when the
lowercased, whitespace-stripped thought is shorter than 15 characters or
is an exact member of the fixed greeting / acknowledgement set, and
answers "full_pipeline" otherwise. -/
theorem supf_simple_iff (s : AgentState) :
    (should_use_full_pipeline s = "simple" ↔
      ((pyStrip (pyLower s.thought)).length < 15 ∨
        pyStrip (pyLower s.thought) ∈ simple_patterns)) ∧
    (should_use_full_pipeline s = "full_pipeline" ↔
      ¬((pyStrip (pyLower s.thought)).length < 15 ∨
        pyStrip (pyLower s.thought) ∈ simple_patterns)) := by
  unfold should_use_full_pipeline
  by_cases h : (pyStrip (pyLower s.thought)).length < 15 ∨
    pyStrip (pyLower s.thought) ∈ simple_patterns
  · rw [if_pos h]
    exact ⟨⟨fun _ => h, fun _ => rfl⟩, ⟨fun he => absurd he (by decide), fun hn => absurd h hn⟩⟩
  · rw [if_neg h]
    exact ⟨⟨fun he => absurd he (by decide), fun hc => absurd hc h⟩, ⟨fun _ => h, fun _ => rfl⟩⟩

/-! ## Extraction agents and their failure semantics
(src/backend/extraction_agents.py)

Each agent wraps its model-oracle call in `try/except Exception`; the
oracle is modelled as an `Except String String` (raised exception vs
returned text), and the `re.search` + `json.loads` + comprehension step of
the success path as an abstract `parse : String → Option (List Entity)`
(a parse failure inside the `try` is also caught and lands in `none`). -/

/-- extraction_agents.py `extract_entities` (lines 50-79): on any raised
oracle error, fall through to `return []`; otherwise parse a JSON array out
of the stripped response, returning `[]` when none is found. -/
def extract_entities (parse : String → Option (List Entity))
    (oracle : Except String String) : List Entity :=
  match oracle with
  | .error _ => []
  | .ok content =>
    match parse (pyStrip content) with
    | some es => es
    | none => []

/-- extraction_agents.py `critique_extraction` (lines 244-266): return the
stripped oracle text, or "Looks good." when the call raises. -/
def critique_extraction (oracle : Except String String) : String :=
  match oracle with
  | .error _ => "Looks good."
  | .ok content => pyStrip content

/-- extraction_agents.py `refine_extraction` (lines 268-305): short-circuit
on a "looks good" or trivially short critique; otherwise call the oracle
and parse, returning the input entities unchanged on a raised error or a
missing JSON array. -/
def refine_extraction (parse : String → Option (List Entity))
    (oracle : Except String String)
    (thought : String) (entities : List Entity) (critique : String) : List Entity :=
  if pyStartsWith (pyLower critique) "looks good" = true ∨ critique.length < 5 then
    entities
  else
    match oracle with
    | .error _ => entities
    | .ok content =>
      match parse (pyStrip content) with
      | some es => es
      | none => entities

/-- C6: any oracle-call failure (raised exception) inside entity
extraction, critique, or refinement is caught locally and replaced by a
safe default — the empty entity list, the string "Looks good.", and the
unchanged input entity list respectively — so no exception propagates out
of these agents. -/
theorem oracle_failures_recovered (err : String)
    (parse : String → Option (List Entity))
    (thought critique : String) (entities : List Entity) :
    extract_entities parse (.error err) = [] ∧
    critique_extraction (.error err) = "Looks good." ∧
    refine_extraction parse (.error err) thought entities critique = entities := by
  refine ⟨rfl, rfl, ?_⟩
  unfold refine_extraction
  split_ifs <;> rfl

/-! ## Spaced-repetition review (knowledge_graph.py `mark_as_reviewed`) -/

/-- The `quality_map` lookup with default 4:
`{easy: 5, medium: 4, hard: 3}.get(difficulty, 4)`. -/
def quality_of (difficulty : String) : ℤ :=
  if difficulty = "easy" then 5
  else if difficulty = "medium" then 4
  else if difficulty = "hard" then 3
  else 4

/-- knowledge_graph.py `mark_as_reviewed` (lines 415-455), ease-factor
part: `EF + (0.1 - (5-q)*(0.08 + (5-q)*0.02))`, clamped below at 1.3. -/
def ease_factor_update (ef : ℚ) (difficulty : String) : ℚ :=
  if ef + (1/10 - ((5 - quality_of difficulty : ℤ) : ℚ) *
      (2/25 + ((5 - quality_of difficulty : ℤ) : ℚ) * (1/50))) < 13/10 then 13/10
  else ef + (1/10 - ((5 - quality_of difficulty : ℤ) : ℚ) *
    (2/25 + ((5 - quality_of difficulty : ℤ) : ℚ) * (1/50)))

/-- A single review step never leaves the ease factor below 1.3. -/
theorem ease_factor_update_ge (ef : ℚ) (d : String) :
    13/10 ≤ ease_factor_update ef d := by
  unfold ease_factor_update
  split_ifs with h
  · norm_num
  · linarith [not_lt.mp h]

/-- C8: for every starting ease factor at or above 1.3 and every finite
sequence of review difficulties (easy / medium / hard or anything else),
repeatedly applying the `mark_as_reviewed` ease-factor update keeps the
stored ease factor at or above 1.3 after every step (every element of the
scan trace). -/
theorem ease_factor_never_below (ds : List String) (ef : ℚ)
    (h : 13/10 ≤ ef) :
    ∀ x ∈ List.scanl ease_factor_update ef ds, 13/10 ≤ x := by
  induction ds generalizing ef with
  | nil =>
    intro x hx
    simp only [List.scanl, List.mem_singleton] at hx
    exact hx ▸ h
  | cons d ds ih =>
    intro x hx
    simp only [List.scanl, List.mem_cons] at hx
    rcases hx with rfl | hx
    · exact h
    · exact ih (ease_factor_update ef d) (ease_factor_update_ge ef d) x hx

/-- Witness for C8: a "hard" review starting from the SM-2 default 2.5
stays at or above 1.3. -/
theorem ease_factor_never_below_witness :
    (13:ℚ)/10 ≤ 5/2 ∧ (13:ℚ)/10 ≤ ease_factor_update (5/2) "hard" :=
  ⟨by norm_num,
    ease_factor_never_below ["hard"] (5/2) (by norm_num)
      (ease_factor_update (5/2) "hard") (by simp [List.scanl])⟩

/-! ## knowledge_graph.py `add_thought`: the Cypher writes it issues -/

/-- One Neo4j write issued by `add_thought`, in program order. -/
inductive GraphOp where
  | mergeThought (id : String)
  | mergeEntity (key : String) (thoughtId : String)
  | mergeCategory (name : String) (thoughtId : String)
  | mergeAction (description : String) (thoughtId : String)
  | markProjectAtRisk (projectName : String) (thoughtId : String)
deriving Repr, DecidableEq

/-- Python truthiness of the `affected_project: Optional[str]` field:
`None` and the empty string are falsy. -/
def projectTruthy : Option String → Bool
  | none => false
  | some s => s ≠ ""

/-- knowledge_graph.py `add_thought` (lines 204-267) as the ordered list of
graph writes it performs: thought merge, one entity merge per entity, one
category merge per category, one action merge per action, and — only under
`if thought.is_blocker and thought.affected_project:` — the project-risk
update creating the BLOCKS relationship. -/
def add_thought_ops (t : ThoughtNode) : List GraphOp :=
  [GraphOp.mergeThought t.id]
  ++ t.entities.map (fun e => GraphOp.mergeEntity ((e.type ++ ":" ++ e.name).toLower) t.id)
  ++ t.categories.map (fun c => GraphOp.mergeCategory c.name t.id)
  ++ t.actions.map (fun a => GraphOp.mergeAction a.description t.id)
  ++ (if t.is_blocker ∧ projectTruthy t.affected_project then
        [GraphOp.markProjectAtRisk (t.affected_project.getD "") t.id]
      else [])

/-- Recognizer for the project-risk side effect. -/
def isRiskOp : GraphOp → Bool
  | GraphOp.markProjectAtRisk _ _ => true
  | _ => false

/-- C9: `add_thought` issues the project-risk write (marking the
project at risk and creating the BLOCKS relationship) exactly when
`is_blocker` is true and `affected_project` is a non-empty name; in
particular a blocker thought with a null or empty `affected_project` never
triggers that side effect. -/
theorem risk_op_iff_blocker_and_project (t : ThoughtNode) :
    ((add_thought_ops t).any isRiskOp =
      (t.is_blocker && projectTruthy t.affected_project)) ∧
    (projectTruthy t.affected_project = true ↔
      ∃ s, t.affected_project = some s ∧ s ≠ "") ∧
    (t.is_blocker = true → (t.affected_project = none ∨ t.affected_project = some "") →
      ∀ op ∈ add_thought_ops t, isRiskOp op = false) := by
  have hmaps : ∀ op ∈ [GraphOp.mergeThought t.id]
      ++ t.entities.map (fun e => GraphOp.mergeEntity ((e.type ++ ":" ++ e.name).toLower) t.id)
      ++ t.categories.map (fun c => GraphOp.mergeCategory c.name t.id)
      ++ t.actions.map (fun a => GraphOp.mergeAction a.description t.id),
      isRiskOp op = false := by
    intro op hop
    simp only [List.mem_append, List.mem_map, List.mem_singleton] at hop
    rcases hop with ((h | ⟨e, _, h⟩) | ⟨c, _, h⟩) | ⟨a, _, h⟩ <;> subst h <;> rfl
  refine ⟨?_, ?_, ?_⟩
  · unfold add_thought_ops
    by_cases hb : t.is_blocker ∧ projectTruthy t.affected_project
    · rw [if_pos hb]
      simp only [List.any_append, List.any_cons, List.any_nil, List.any_map]
      simp [isRiskOp, hb.1, hb.2, Function.comp]
    · rw [if_neg hb]
      simp only [List.any_append, List.any_cons, List.any_nil, List.any_map]
      have : (t.is_blocker && projectTruthy t.affected_project) = false := by
        cases ht : t.is_blocker with
        | false => simp
        | true =>
          cases hp : projectTruthy t.affected_project with
          | false => simp
          | true => exact absurd ⟨ht, hp⟩ hb
      rw [this]
      simp [isRiskOp, Function.comp]
  · cases t.affected_project with
    | none => simp [projectTruthy]
    | some s =>
      simp only [projectTruthy, Option.some.injEq]
      constructor
      · intro h
        exact ⟨s, rfl, by simpa using h⟩
      · rintro ⟨s2, rfl, hs2⟩
        simpa using hs2
  · intro hb hproj op hop
    have hfalse : projectTruthy t.affected_project = false := by
      rcases hproj with h | h <;> simp [h, projectTruthy]
    unfold add_thought_ops at hop
    rw [if_neg (by rw [hfalse]; rintro ⟨-, h⟩; exact absurd h (by decide))] at hop
    rw [List.append_nil] at hop
    exact hmaps op hop

/-- Witness for C9: a blocker thought with `affected_project = None` issues
no project-risk write. -/
theorem risk_op_iff_blocker_and_project_witness :
    isRiskOp (GraphOp.mergeThought "t1") = false :=
  (risk_op_iff_blocker_and_project
      ⟨"t1", "content", "sum", "ts", [], [], [], true, none, [], [], 0, none, 5/2⟩).2.2
    rfl (Or.inl rfl) (GraphOp.mergeThought "t1") (by decide)

/-! ## Pipeline wiring (graph.py `build_graph`, lines 534-590) -/

/-- The nodes of the compiled LangGraph workflow, plus START and END. -/
inductive GNode where
  | START
  | load_context
  | extract
  | reflect
  | refine
  | enrich
  | respond
  | save
  | synthesize
  | simple
  | «END»
deriving Repr, DecidableEq, Fintype

/-- The successor lists declared in `build_graph`: plain `add_edge` gives a
singleton, `add_conditional_edges` lists every declared branch target. -/
def successors : GNode → List GNode
  | GNode.START => [GNode.load_context]
  | GNode.load_context => [GNode.extract, GNode.simple]
  | GNode.extract => [GNode.reflect]
  | GNode.reflect => [GNode.refine, GNode.enrich]
  | GNode.refine => [GNode.reflect]
  | GNode.enrich => [GNode.respond]
  | GNode.respond => [GNode.save]
  | GNode.save => [GNode.synthesize]
  | GNode.synthesize => [GNode.«END»]
  | GNode.simple => [GNode.save]
  | GNode.«END» => []

/-- Edge relation of the compiled graph. -/
def graphEdge (a b : GNode) : Prop := b ∈ successors a

instance (a b : GNode) : Decidable (graphEdge a b) :=
  inferInstanceAs (Decidable (b ∈ successors a))

/-- How many times `save` appears on any execution suffix starting at a
given node: once from every node that has not passed `save` yet, and zero
after it. -/
def expectedSaves : GNode → Nat
  | GNode.synthesize => 0
  | GNode.«END» => 0
  | _ => 1

/-- Along any edge, passing the node accounts exactly for the difference in
remaining `save` visits. -/
theorem expectedSaves_step :
    ∀ n m : GNode, graphEdge n m →
      expectedSaves m + (if n = GNode.save then 1 else 0) = expectedSaves n := by
  decide

/-- Any chain of graph edges ending at END visits `save` exactly
`expectedSaves` of its first node many times. -/
theorem count_save_of_chain (p : List GNode) :
    ∀ n : GNode, List.Chain' graphEdge (n :: p) →
      (n :: p).getLast? = some GNode.«END» →
      (n :: p).count GNode.save = expectedSaves n := by
  induction p with
  | nil =>
    intro n _ hlast
    simp only [List.getLast?_singleton, Option.some.injEq] at hlast
    subst hlast
    decide
  | cons m rest ih =>
    intro n hchain hlast
    have hedge : graphEdge n m := (List.chain'_cons.mp hchain).1
    have hchain2 : List.Chain' graphEdge (m :: rest) := (List.chain'_cons.mp hchain).2
    have hlast2 : (m :: rest).getLast? = some GNode.«END» := by
      rwa [List.getLast?_cons_cons] at hlast
    have hcount := ih m hchain2 hlast2
    have hstep := expectedSaves_step n m hedge
    rw [List.count_cons, hcount]
    rw [← hstep]
    by_cases hn : n = GNode.save
    · simp [hn]
    · simp [hn, Ne.symm hn]

/-! ## Responder and saver nodes (graph.py lines 273-469) -/

/-- graph.py `assistant_responder` (lines 273-336): the LLM answer is the
`responseText` oracle argument; it is written into the `response` field. -/
def assistant_responder (responseText : String) (state : AgentState) : AgentState :=
  { state with
    response := responseText
    analysis := if state.is_question then "Question" else "Note/Thought"
    insights := if state.retrieved_notes ≠ "" then state.retrieved_notes
      else state.related_context
    stage := "responded" }

/-- graph.py `simple_responder` (lines 441-469): the LLM answer is the
`responseText` oracle argument. -/
def simple_responder (responseText : String) (state : AgentState) : AgentState :=
  { state with
    analysis := "Greeting"
    insights := ""
    response := responseText
    summary := pyTake state.thought 50
    entities := []
    categories := [⟨"Personal", 1/2⟩]
    stage := "responded" }

/-- One persistence-layer operation performed by `knowledge_saver`, in
program order. -/
inductive SaveOp where
  | graphAddThought (id : String)
  | vectorIndex (id : String)
  | appendMessage (role content : String)
  | serendipityQuery
  | createTaskHierarchy
  | createAtomicThoughts
deriving Repr, DecidableEq

/-- zettelkasten_agent.py `is_long_form`: more than 100 words or at least
3 paragraphs (`content.count("\n\n") + 1 ≥ 3`). -/
def is_long_form (content : String) : Bool :=
  100 < pyWordCount content ∨ 3 ≤ countSub ['\n', '\n'] content.data + 1

/-- zettelkasten_agent.py `should_atomize`. -/
def should_atomize (content : String) : Bool := is_long_form content

/-- graph.py `knowledge_saver` (lines 339-412) as the ordered list of
persistence operations it performs: graph write of the Thought, vector
indexing, conversation append (user then assistant), serendipity lookup,
then the conditional task-decomposition and atomization writes.
`isComplexTask` abstracts the `decompose_task` LLM verdict and `atoms` the
`atomize_content` LLM output. -/
def knowledge_saver_ops (isComplexTask : Bool) (atoms : List String)
    (state : AgentState) : List SaveOp :=
  [SaveOp.graphAddThought state.thought_id,
   SaveOp.vectorIndex state.thought_id,
   SaveOp.appendMessage "user" state.thought,
   SaveOp.appendMessage "assistant" state.response,
   SaveOp.serendipityQuery]
  ++ (if state.actions ≠ [] ∧ isComplexTask then [SaveOp.createTaskHierarchy] else [])
  ++ (if should_atomize state.thought ∧ atoms ≠ [] then [SaveOp.createAtomicThoughts]
      else [])

/-- C5: every execution path of the compiled graph — simple or full —
reaches `save` exactly once; the only edges into `save` come from the
`respond` and `simple` nodes, both of which assign the `response` field
from their oracle answer, so `save` never runs with an unset response; and
inside `save` the operations happen in order: Thought written to the
graph, then indexed in the vector store, then the conversation history
appended with the user message followed by the assistant message. -/
theorem save_once_and_ordered :
    (∀ p : List GNode, p.head? = some GNode.START →
      p.getLast? = some GNode.«END» → List.Chain' graphEdge p →
      p.count GNode.save = 1) ∧
    (∀ n : GNode, graphEdge n GNode.save → n = GNode.respond ∨ n = GNode.simple) ∧
    (∀ r s, (assistant_responder r s).response = r) ∧
    (∀ r s, (simple_responder r s).response = r) ∧
    (∀ b atoms s, (knowledge_saver_ops b atoms s).take 4 =
      [SaveOp.graphAddThought s.thought_id,
       SaveOp.vectorIndex s.thought_id,
       SaveOp.appendMessage "user" s.thought,
       SaveOp.appendMessage "assistant" s.response]) := by
  refine ⟨?_, by decide, fun r s => rfl, fun r s => rfl, ?_⟩
  · intro p hhead hlast hchain
    match p, hhead with
    | GNode.START :: rest, _ =>
      exact count_save_of_chain rest GNode.START hchain hlast
  · intro b atoms s
    show (([SaveOp.graphAddThought s.thought_id,
       SaveOp.vectorIndex s.thought_id,
       SaveOp.appendMessage "user" s.thought,
       SaveOp.appendMessage "assistant" s.response,
       SaveOp.serendipityQuery] ++ _) ++ _).take 4 = _
    rw [List.append_assoc]
    rfl

/-- Witness for C5: the simple path START → load_context → simple → save →
synthesize → END visits `save` exactly once. -/
theorem save_once_and_ordered_witness :
    [GNode.START, GNode.load_context, GNode.simple, GNode.save,
      GNode.synthesize, GNode.«END»].count GNode.save = 1 :=
  save_once_and_ordered.1
    [GNode.START, GNode.load_context, GNode.simple, GNode.save,
      GNode.synthesize, GNode.«END»] rfl rfl
    (by simp [List.chain'_cons, graphEdge, successors])

/-! ## Context compression (context_ranker.py `compress_context`, lines 65-102)

Modelled on `List Char` so that character index arithmetic matches Python
string slicing exactly. -/

/-- Python `text.split("\n")`: every occurrence splits, empty pieces kept. -/
def splitNl : List Char → List (List Char)
  | [] => [[]]
  | c :: cs =>
    if c = '\n' then [] :: splitNl cs
    else
      match splitNl cs with
      | r :: rs => (c :: r) :: rs
      | [] => [[c]]

/-- Python `"\n".join(lines)`. -/
def joinNl : List (List Char) → List Char
  | [] => []
  | [l] => l
  | l :: ls => l ++ '\n' :: joinNl ls

/-- The head-keeping loop of `compress_context`: accumulate lines while
`chars + len(line) < half_budget`, adding `len(line) + 1` to the counter,
and break at the first line that does not fit. -/
def collectHead (half : Nat) : List (List Char) → Nat → List (List Char)
  | [], _ => []
  | l :: ls, chars =>
    if chars + l.length < half then l :: collectHead half ls (chars + l.length + 1)
    else []

/-- context_ranker.py `compress_context`: identity under budget; otherwise
keep a head window and a tail window of lines joined around the
"[context compressed]" marker, falling back to plain truncation plus "..."
when either window is empty. -/
def compress_context (context_text : List Char) (max_chars : Nat) : List Char :=
  if context_text.length ≤ max_chars then context_text
  else
    if collectHead (max_chars / 2) (splitNl context_text) 0 ≠ [] ∧
        collectHead (max_chars / 2) (splitNl context_text).reverse 0 ≠ [] then
      joinNl (collectHead (max_chars / 2) (splitNl context_text) 0)
        ++ "\n... [context compressed] ...\n".data
        ++ joinNl ((collectHead (max_chars / 2) (splitNl context_text).reverse 0).reverse)
    else
      context_text.take max_chars ++ "...".data

/-- Splitting always yields at least one line: `splitNl` is never empty. -/
theorem splitNl_ne_nil (l : List Char) : splitNl l ≠ [] := by
  cases l with
  | nil => simp [splitNl]
  | cons c cs =>
    unfold splitNl
    split_ifs
    · simp
    · cases h : splitNl cs <;> simp

/-- Unfolding `joinNl` on a two-or-more-element list. -/
theorem joinNl_cons_of_ne (l : List Char) (ls : List (List Char)) (h : ls ≠ []) :
    joinNl (l :: ls) = l ++ '\n' :: joinNl ls := by
  cases ls with
  | nil => exact absurd rfl h
  | cons x xs => rfl

/-- The head window never outgrows the half budget: if it is nonempty, its
joined length plus the starting counter stays below `half`. -/
theorem joinNl_collectHead_lt (half : Nat) (ls : List (List Char)) :
    ∀ c : Nat, collectHead half ls c = [] ∨
      (joinNl (collectHead half ls c)).length + c < half := by
  induction ls with
  | nil => intro c; exact Or.inl rfl
  | cons l ls ih =>
    intro c
    unfold collectHead
    split_ifs with h
    · refine Or.inr ?_
      rcases ih (c + l.length + 1) with hnil | hlt
      · rw [hnil]
        simp only [joinNl]
        omega
      · rcases List.eq_nil_or_concat (collectHead half ls (c + l.length + 1)) with hnil | ⟨_, _, hne⟩
        · rw [hnil]
          simp only [joinNl]
          omega
        · rw [joinNl_cons_of_ne _ _ (by simp [hne])]
          simp only [List.length_append, List.length_cons]
          omega
    · exact Or.inl rfl

/-- Joined length only depends on the multiset of lines: reversing the line
list keeps it. -/
theorem joinNl_length (ls : List (List Char)) (h : ls ≠ []) :
    (joinNl ls).length = (ls.map List.length).sum + ls.length - 1 := by
  induction ls with
  | nil => exact absurd rfl h
  | cons l ls ih =>
    cases ls with
    | nil => simp [joinNl]
    | cons x xs =>
      rw [joinNl_cons_of_ne _ _ (by simp), List.length_append]
      rw [List.length_cons, ih (by simp)]
      simp only [List.map_cons, List.sum_cons, List.length_cons]
      have : 1 ≤ (List.map List.length (x :: xs)).sum + (x :: xs).length := by
        simp only [List.length_cons]
        omega
      omega

/-- Reversing the collected tail lines preserves the joined length. -/
theorem joinNl_reverse_length (ls : List (List Char)) :
    (joinNl ls.reverse).length = (joinNl ls).length := by
  cases h : ls with
  | nil => rfl
  | cons x xs =>
    rw [joinNl_length _ (by simp), joinNl_length _ (by simp)]
    simp only [List.map_reverse, List.sum_reverse, List.length_reverse]

/-- First element of a nonempty `joinNl` is a prefix chunk. -/
theorem joinNl_head_chunk (l : List Char) (ls : List (List Char)) :
    ∃ t, joinNl (l :: ls) = l ++ t := by
  cases ls with
  | nil => exact ⟨[], by simp [joinNl]⟩
  | cons x xs => exact ⟨'\n' :: joinNl (x :: xs), rfl⟩

/-- Last element of a `joinNl` over `r ++ [l]` is a suffix chunk. -/
theorem joinNl_last_chunk (r : List (List Char)) (l : List Char) :
    ∃ s, joinNl (r ++ [l]) = s ++ l := by
  induction r with
  | nil => exact ⟨[], by simp [joinNl]⟩
  | cons x xs ih =>
    obtain ⟨s, hs⟩ := ih
    refine ⟨x ++ '\n' :: s, ?_⟩
    rw [List.cons_append, joinNl_cons_of_ne _ _ (by simp), hs]
    simp

/-- Unfolding `collectHead` when the next line fits the remaining budget. -/
theorem collectHead_cons (half : Nat) (l : List Char) (ls : List (List Char))
    (chars : Nat) (h : chars + l.length < half) :
    collectHead half (l :: ls) chars =
      l :: collectHead half ls (chars + l.length + 1) := by
  unfold collectHead
  rw [if_pos h]
  cases ls <;> rfl

/-- C4 (amended): `compress_context` is the identity when the input
fits the budget.  When the input exceeds the budget the output is NOT in
general strictly shorter than the input (see the counterexample): what
holds is that its length stays below `max_chars + 30`, and that it
contains the first and the last line of the input whenever each of those
lines fits inside the half budget kept for the head and tail windows. -/
theorem compress_context_spec (text : List Char) (max_chars : Nat) :
    (text.length ≤ max_chars → compress_context text max_chars = text) ∧
    (max_chars < text.length →
      (compress_context text max_chars).length < max_chars + 30) ∧
    (max_chars < text.length →
      ((splitNl text).headI).length < max_chars / 2 →
      ((splitNl text).getLastD []).length < max_chars / 2 →
      (splitNl text).headI <:+: compress_context text max_chars ∧
      (splitNl text).getLastD [] <:+: compress_context text max_chars) := by
  refine ⟨?_, ?_, ?_⟩
  · intro h
    unfold compress_context
    rw [if_pos h]
  · intro h
    unfold compress_context
    rw [if_neg (by omega)]
    split_ifs with hw
    · obtain ⟨h1, h2⟩ := hw
      have hb1 := joinNl_collectHead_lt (max_chars / 2) (splitNl text) 0
      have hb2 := joinNl_collectHead_lt (max_chars / 2) (splitNl text).reverse 0
      rcases hb1 with hnil | hlt1
      · exact absurd hnil h1
      rcases hb2 with hnil | hlt2
      · exact absurd hnil h2
      have hrev := joinNl_reverse_length
        (collectHead (max_chars / 2) (splitNl text).reverse 0)
      have hmark : ("\n... [context compressed] ...\n".data).length = 30 := by decide
      simp only [List.length_append, hmark, hrev]
      omega
    · simp only [List.length_append, List.length_take, List.length_cons,
        List.length_nil]
      omega
  · intro h hfirst hlast
    have hne := splitNl_ne_nil text
    obtain ⟨l0, rest, hl⟩ := List.exists_cons_of_ne_nil hne
    obtain ⟨init, lN, hconcat⟩ := (List.eq_nil_or_concat (splitNl text)).resolve_left hne
    have hheadI : (splitNl text).headI = l0 := by rw [hl]; rfl
    have hlastD : (splitNl text).getLastD [] = lN := by
      rw [List.getLastD_eq_getLast?, hconcat, List.concat_eq_append,
        List.getLast?_concat]
      rfl
    rw [hheadI] at hfirst
    rw [hlastD] at hlast
    rw [hheadI, hlastD]
    have hrev : (splitNl text).reverse = lN :: init.reverse := by
      rw [hconcat, List.concat_eq_append, List.reverse_append]
      rfl
    have hch1 : collectHead (max_chars / 2) (splitNl text) 0 =
        l0 :: collectHead (max_chars / 2) rest (0 + l0.length + 1) := by
      rw [hl]
      exact collectHead_cons _ _ _ _ (by omega)
    have hch2 : collectHead (max_chars / 2) (splitNl text).reverse 0 =
        lN :: collectHead (max_chars / 2) init.reverse (0 + lN.length + 1) := by
      rw [hrev]
      exact collectHead_cons _ _ _ _ (by omega)
    have hcompress : compress_context text max_chars =
        joinNl (collectHead (max_chars / 2) (splitNl text) 0)
          ++ "\n... [context compressed] ...\n".data
          ++ joinNl ((collectHead (max_chars / 2) (splitNl text).reverse 0).reverse) := by
      unfold compress_context
      rw [if_neg (by omega), if_pos ⟨by rw [hch1]; simp, by rw [hch2]; simp⟩]
    obtain ⟨t, ht⟩ := joinNl_head_chunk l0
      (collectHead (max_chars / 2) rest (0 + l0.length + 1))
    obtain ⟨s, hs⟩ := joinNl_last_chunk
      (collectHead (max_chars / 2) init.reverse (0 + lN.length + 1)).reverse lN
    constructor
    · refine ⟨[], t ++ "\n... [context compressed] ...\n".data
        ++ joinNl ((collectHead (max_chars / 2) (splitNl text).reverse 0).reverse), ?_⟩
      rw [hcompress, hch1, ht]
      simp
    · refine ⟨joinNl (collectHead (max_chars / 2) (splitNl text) 0)
        ++ "\n... [context compressed] ...\n".data ++ s, [], ?_⟩
      rw [hcompress, hch2]
      simp only [List.reverse_cons, hs]
      simp

/-- C4 counterexample: for the over-budget one-line input "abcde" with
budget 4 both windows are empty, so `compress_context` falls back to
truncation plus "..." — the output "abcd..." is LONGER than the input and
contains neither the first nor the last line (both are "abcde"). -/
theorem compress_context_claim_false :
    ¬((compress_context "abcde".data 4).length < "abcde".data.length) ∧
    ¬((splitNl "abcde".data).headI <:+: compress_context "abcde".data 4) ∧
    ¬((splitNl "abcde".data).getLastD [] <:+: compress_context "abcde".data 4) := by
  refine ⟨by decide, by decide, by decide⟩

/-- Witness for C4: a three-character input under a budget of 5 is returned
unchanged, and for the over-budget four-line input "ab\ncd\nef\ngh" with
budget 10 the output keeps the first and last lines and stays under the
length bound. -/
theorem compress_context_spec_witness :
    compress_context "abc".data 5 = "abc".data ∧
    (compress_context "ab\ncd\nef\ngh".data 10).length < 10 + 30 ∧
    ("ab".data <:+: compress_context "ab\ncd\nef\ngh".data 10 ∧
      "gh".data <:+: compress_context "ab\ncd\nef\ngh".data 10) :=
  ⟨(compress_context_spec "abc".data 5).1 (by decide),
   (compress_context_spec "ab\ncd\nef\ngh".data 10).2.1 (by decide),
   by
    have h := (compress_context_spec "ab\ncd\nef\ngh".data 10).2.2 (by decide)
      (by decide) (by decide)
    have h1 : (splitNl "ab\ncd\nef\ngh".data).headI = "ab".data := by decide
    have h2 : (splitNl "ab\ncd\nef\ngh".data).getLastD [] = "gh".data := by decide
    rw [h1, h2] at h
    exact h⟩

/-! ## difflib.SequenceMatcher (the engine behind
entity_resolver.py `similarity_score`)

`similarity_score(a, b)` is `SequenceMatcher(None, a.lower(), b.lower()).ratio()`.
`ratio` is `2*M/T` where `M` is the total size of the matching blocks found
by the recursive `find_longest_match` sweep and `T` the combined length.
With `isjunk=None` the junk set is empty, so the two junk-extension loops
of `find_longest_match` never run (their guard `isbjunk(...)` is always
false) and only the `autojunk` rule (popular elements of a `b` of length
at least 200 are dropped from `b2j`) remains.  All loops are written with
structural recursion (explicit fuel where Python iterates on a mutable
cursor) so that concrete instances evaluate by kernel reduction. -/

/-- Lookup `b2j[c]`: the ascending indices of occurrences of `c` in `b`, with the
autojunk rule: for `len(b) ≥ 200`, elements occurring more than
`len(b)//100 + 1` times are dropped. -/
def b2j (b : List Char) (c : Char) : List Nat :=
  if 200 ≤ b.length ∧ b.length / 100 + 1 < b.count c then []
  else (b.enum.filter (fun p => p.2 == c)).map Prod.fst

/-- Running best match of `find_longest_match`. -/
structure LMatch where
  besti : Nat
  bestj : Nat
  bestsize : Nat
deriving Repr, DecidableEq

/-- Lookup `j2len.get(j, 0)` on the association-list model of the dict. -/
def lookupJ (m : List (Nat × Nat)) (j : Nat) : Nat :=
  match m.find? (fun p => p.1 == j) with
  | some p => p.2
  | none => 0

/-- The inner `for j in b2j.get(a[i], [])` loop of `find_longest_match`:
skip `j < blo`, break at `j ≥ bhi`, otherwise set
`k = newj2len[j] = j2len.get(j-1, 0) + 1` and update the best triple when
`k > bestsize`. -/
def innerLoop (i blo bhi : Nat) (j2len : List (Nat × Nat)) :
    List Nat → List (Nat × Nat) → LMatch → List (Nat × Nat) × LMatch
  | [], newj2len, st => (newj2len, st)
  | j :: js, newj2len, st =>
    if j < blo then innerLoop i blo bhi j2len js newj2len st
    else if bhi ≤ j then (newj2len, st)
    else
      let k := (if j = 0 then 0 else lookupJ j2len (j - 1)) + 1
      innerLoop i blo bhi j2len js ((j, k) :: newj2len)
        (if st.bestsize < k then ⟨i + 1 - k, j + 1 - k, k⟩ else st)

/-- The outer `for i in range(alo, ahi)` loop of `find_longest_match`:
thread the `j2len` row and the best triple. -/
def outerLoop (a b : List Char) (blo bhi : Nat) :
    List Nat → List (Nat × Nat) → LMatch → LMatch
  | [], _, st => st
  | i :: is2, j2len, st =>
    match innerLoop i blo bhi j2len (b2j b (a.getD i 'A')) [] st with
    | (newj2len, st2) => outerLoop a b blo bhi is2 newj2len st2

/-- The first extension loop: widen the best block downwards while the
adjacent (non-junk) characters match.  `fuel` bounds the iteration count
(`besti` suffices, as `besti` strictly decreases). -/
def extendLower (a b : List Char) (alo blo : Nat) :
    Nat → Nat → Nat → Nat → Nat × Nat × Nat
  | 0, besti, bestj, bestsize => (besti, bestj, bestsize)
  | fuel + 1, besti, bestj, bestsize =>
    if alo < besti ∧ blo < bestj ∧
        a.getD (besti - 1) 'A' = b.getD (bestj - 1) 'B' then
      extendLower a b alo blo fuel (besti - 1) (bestj - 1) (bestsize + 1)
    else (besti, bestj, bestsize)

/-- The second extension loop: widen the best block upwards while the
adjacent (non-junk) characters match.  `fuel` bounds the iteration count
(`ahi` suffices). -/
def extendUpper (a b : List Char) (ahi bhi besti bestj : Nat) :
    Nat → Nat → Nat
  | 0, bestsize => bestsize
  | fuel + 1, bestsize =>
    if besti + bestsize < ahi ∧ bestj + bestsize < bhi ∧
        a.getD (besti + bestsize) 'A' = b.getD (bestj + bestsize) 'B' then
      extendUpper a b ahi bhi besti bestj fuel (bestsize + 1)
    else bestsize

/-- difflib `find_longest_match` restricted to `a[alo:ahi]` × `b[blo:bhi]`,
with an empty junk set (`isjunk=None`): the DP sweep, then the two
non-junk extension loops; the two junk-extension loops are no-ops because
`isbjunk` is constantly false. -/
def find_longest_match (a b : List Char) (alo ahi blo bhi : Nat) :
    Nat × Nat × Nat :=
  match outerLoop a b blo bhi (List.range' alo (ahi - alo)) [] ⟨alo, blo, 0⟩ with
  | ⟨besti, bestj, bestsize⟩ =>
    match extendLower a b alo blo besti besti bestj bestsize with
    | (bi, bj, bs) => (bi, bj, extendUpper a b ahi bhi bi bj ahi bs)

/-- Total size of all matching blocks (the sum that `ratio()` uses over
`get_matching_blocks()`): recursively take the longest match and recurse
on the two flanking windows.  `fuel` bounds the recursion depth; each
level consumes at least one character of the window, so
`len(a) + len(b) + 1` always suffices. -/
def matchingTotal (a b : List Char) : Nat → Nat → Nat → Nat → Nat → Nat
  | 0, _, _, _, _ => 0
  | fuel + 1, alo, ahi, blo, bhi =>
    match find_longest_match a b alo ahi blo bhi with
    | (besti, bestj, bestsize) =>
      if bestsize = 0 then 0
      else
        matchingTotal a b fuel alo besti blo bestj + bestsize +
          matchingTotal a b fuel (besti + bestsize) ahi (bestj + bestsize) bhi

/-- difflib `SequenceMatcher.ratio()`: `2*M / T` (and 1.0 for two empty
sequences). -/
def ratio (a b : List Char) : ℚ :=
  if a.length + b.length = 0 then 1
  else 2 * (matchingTotal a b (a.length + b.length + 1) 0 a.length 0 b.length : ℚ)
    / (a.length + b.length)

/-- entity_resolver.py `similarity_score` (lines 10-12):
`SequenceMatcher(None, a.lower(), b.lower()).ratio()`. -/
def similarity_score (a b : String) : ℚ :=
  ratio (pyLower a).data (pyLower b).data

/-! ## Entity resolver (entity_resolver.py `resolve_entity`) -/

/-- An element of the `existing_entities` dict list (the fields
`resolve_entity` reads, with `.get` defaults ""). -/
structure ExistingEntity where
  name : String
  type : String
deriving Repr, DecidableEq

/-- One entry of the `candidates` list built by `resolve_entity`. -/
structure Candidate where
  name : String
  score : ℚ
  type_match : Bool
deriving Repr, DecidableEq

/-- Strict comparison of the Python sort key `(score, type_match)`
(lexicographic, with `False < True`). -/
def candLtB (x y : Candidate) : Bool :=
  decide (x.score < y.score) ||
    (decide (x.score = y.score) && (!x.type_match && y.type_match))

/-- Insert into a descending-sorted list, after every earlier element with
a key at least as large (stability of Python sort). -/
def insertCand (x : Candidate) : List Candidate → List Candidate
  | [] => [x]
  | y :: ys => if candLtB x y then y :: insertCand x ys else x :: y :: ys

/-- Python `candidates.sort(key=lambda x: (x["score"], x["type_match"]),
reverse=True)`: stable descending insertion sort on the key. -/
def sortCandidates : List Candidate → List Candidate
  | [] => []
  | x :: xs => insertCand x (sortCandidates xs)

/-- Membership is preserved by `insertCand`. -/
theorem mem_insertCand (c x : Candidate) (l : List Candidate) :
    c ∈ insertCand x l ↔ c = x ∨ c ∈ l := by
  induction l with
  | nil => simp [insertCand]
  | cons y ys ih =>
    unfold insertCand
    split_ifs <;> simp only [List.mem_cons, ih] <;> tauto

/-- Membership is preserved by `sortCandidates`. -/
theorem mem_sortCandidates (c : Candidate) (l : List Candidate) :
    c ∈ sortCandidates l ↔ c ∈ l := by
  induction l with
  | nil => simp [sortCandidates]
  | cons x xs ih =>
    unfold sortCandidates
    rw [mem_insertCand, ih, List.mem_cons]

/-- The keyword patterns of `has_distinguishing_context`. -/
def distinguishing_patterns : List String :=
  ["from ", "at ", "in ", "the ", "our ", "their ",
   "manager", "director", "lead", "head", "chief",
   "department", "team", "company", "org"]

/-- entity_resolver.py `has_distinguishing_context` (lines 84-112): a
pattern must occur in the lowercased context and again inside the
50-character window around the first occurrence of the new name. -/
def has_distinguishing_context (new_name existing_name context : String) : Bool :=
  distinguishing_patterns.any (fun pattern =>
    strContains (pyLower context) pattern &&
      (match findSub (pyLower new_name).data (pyLower context).data 0 with
       | none => false
       | some idx =>
         (findSub pattern.data
           (((pyLower context).data.drop (idx - 50)).take
             (min context.length (idx + new_name.length + 50) - (idx - 50))) 0).isSome))

/-- entity_resolver.py `resolve_entity` (lines 15-81), translated branch by
branch: exact case-insensitive match first; otherwise collect candidates
with similarity at least `threshold`, sort them descending by
(score, type-match), auto-merge above 0.9 with matching type, consult the
distinguishing-context check above the threshold, and fall through to a
brand-new entity. -/
def resolve_entity (entity_name entity_type : String)
    (existing_entities : List ExistingEntity) (context : String)
    (threshold : ℚ) : String × Bool :=
  match existing_entities.find?
      (fun e => pyLower e.name == pyStrip (pyLower entity_name)) with
  | some e => (e.name, false)
  | none =>
    match sortCandidates (existing_entities.filterMap (fun e =>
        if threshold ≤ similarity_score entity_name e.name then
          some ⟨e.name, similarity_score entity_name e.name,
            pyLower e.type == pyLower entity_type⟩
        else none)) with
    | [] => (entity_name, true)
    | best :: _ =>
      if 9/10 < best.score ∧ best.type_match = true then (best.name, false)
      else if threshold < best.score then
        if has_distinguishing_context entity_name best.name context then
          (entity_name, true)
        else (best.name, false)
      else (entity_name, true)

/-- C3 counterexample: against the population [("John Smith", Person)],
resolving ("john smith", Person) with the distinguishing context
"John Smith from Engineering, distinct from John Smith in Marketing"
returns (name "John Smith", is_new = False), NOT is_new = True as the
claim states: the exact case-insensitive match in step 1 of
`resolve_entity` returns before the distinguishing-context check is ever
consulted. -/
theorem resolve_entity_context_claim_false :
    resolve_entity "john smith" "Person" [⟨"John Smith", "Person"⟩]
      "John Smith from Engineering, distinct from John Smith in Marketing"
      (17/20) = ("John Smith", false) ∧
    ¬(resolve_entity "john smith" "Person" [⟨"John Smith", "Person"⟩]
      "John Smith from Engineering, distinct from John Smith in Marketing"
      (17/20) = ("John Smith", true)) :=
  ⟨rfl, by decide⟩

/-- C3 (amended): against the population [("John Smith", Person)],
resolving ("john smith", Person) returns (is_new = False, "John Smith")
for EVERY context — with no context and equally with the distinguishing
"Engineering / Marketing" context — because the exact case-insensitive
name match has priority over the similarity and distinguishing-context
branches. -/
theorem resolve_entity_exact_match_wins (context : String) :
    resolve_entity "john smith" "Person" [⟨"John Smith", "Person"⟩]
      context (17/20) = ("John Smith", false) := rfl

set_option maxRecDepth 100000 in
/-- The similarity of the two 20-character names that differ in their last
3 characters is exactly 17/20 = 0.85, the resolver threshold. -/
theorem sim_boundary :
    similarity_score "aaaaaaaaaaaaaaaaabbb" "aaaaaaaaaaaaaaaaaccc" = 17/20 := by
  unfold similarity_score ratio
  rw [if_neg (by decide)]
  rw [show matchingTotal (pyLower "aaaaaaaaaaaaaaaaabbb").data
      (pyLower "aaaaaaaaaaaaaaaaaccc").data
      ((pyLower "aaaaaaaaaaaaaaaaabbb").data.length +
        (pyLower "aaaaaaaaaaaaaaaaaccc").data.length + 1)
      0 (pyLower "aaaaaaaaaaaaaaaaabbb").data.length
      0 (pyLower "aaaaaaaaaaaaaaaaaccc").data.length = 17 from by decide]
  rw [show (pyLower "aaaaaaaaaaaaaaaaabbb").data.length = 20 from by decide,
    show (pyLower "aaaaaaaaaaaaaaaaaccc").data.length = 20 from by decide]
  norm_num

/-- C10: when the new mention is not an exact case-insensitive match of
any existing entity and every similarity score is at most the threshold
0.85 with the best candidate scoring exactly 0.85 (so it is collected as a
candidate but exceeds neither 0.9 nor the threshold strictly),
`resolve_entity` answers (entity_name, is_new = True) for every context —
the distinguishing-context check is never consulted because both merge
branches require a score strictly above their bound. -/
theorem resolve_threshold_boundary (entity_name entity_type : String)
    (existing : List ExistingEntity) (context : String)
    (hne : ∀ e ∈ existing, pyLower e.name ≠ pyStrip (pyLower entity_name))
    (hle : ∀ e ∈ existing, similarity_score entity_name e.name ≤ 17/20)
    (hex : ∃ e ∈ existing, similarity_score entity_name e.name = 17/20) :
    resolve_entity entity_name entity_type existing context (17/20) =
      (entity_name, true) := by
  have hfind : existing.find?
      (fun e => pyLower e.name == pyStrip (pyLower entity_name)) = none := by
    rw [List.find?_eq_none]
    intro e he
    simpa using hne e he
  unfold resolve_entity
  split
  · next e heq =>
    rw [hfind] at heq
    exact Option.noConfusion heq
  · next _ =>
    split
    · rfl
    · next best rest hs =>
      have hbest : best ∈ sortCandidates (existing.filterMap (fun e =>
          if (17:ℚ)/20 ≤ similarity_score entity_name e.name then
            some ⟨e.name, similarity_score entity_name e.name,
              pyLower e.type == pyLower entity_type⟩
          else none)) := by
        rw [hs]
        exact List.mem_cons_self _ _
      rw [mem_sortCandidates] at hbest
      obtain ⟨e, hemem, hecand⟩ := List.mem_filterMap.mp hbest
      by_cases hcase : (17:ℚ)/20 ≤ similarity_score entity_name e.name
      · rw [if_pos hcase] at hecand
        cases hecand
        have hle2 := hle e hemem
        rw [if_neg, if_neg]
        · exact not_lt.mpr hle2
        · rintro ⟨hgt, -⟩
          exact absurd hle2 (not_le.mpr (lt_trans (by norm_num) hgt))
      · rw [if_neg hcase] at hecand
        exact Option.noConfusion hecand

/-- Witness for C10: the boundary pair of 20-character names at similarity
exactly 0.85 stays a brand-new entity. -/
theorem resolve_threshold_boundary_witness :
    resolve_entity "aaaaaaaaaaaaaaaaabbb" "Person"
      [⟨"aaaaaaaaaaaaaaaaaccc", "Person"⟩] "any context" (17/20) =
      ("aaaaaaaaaaaaaaaaabbb", true) :=
  resolve_threshold_boundary "aaaaaaaaaaaaaaaaabbb" "Person"
    [⟨"aaaaaaaaaaaaaaaaaccc", "Person"⟩] "any context"
    (by decide)
    (fun e he => by
      have he2 : e = ⟨"aaaaaaaaaaaaaaaaaccc", "Person"⟩ := by simpa using he
      rw [he2]
      exact le_of_eq sim_boundary)
    ⟨⟨"aaaaaaaaaaaaaaaaaccc", "Person"⟩, by simp, sim_boundary⟩

end PeoplesAgent
